import Mathlib

/-!
# Shallow embedding of the event-app order/ticket pipeline

This file embeds the core order/payment/ticket-issuance pipeline of the
event-ticketing backend (`src/services/OrderService.js`,
`src/services/TicketService.js`, data model from `prisma/schema.prisma`)
as pure Lean functions over an explicit application state, and proves the
spec's claims about it.

Modelling conventions:
* A Prisma transaction is a pure function on `AppState`; a thrown error
  inside the transaction callback makes the whole operation return the
  original state (rollback).
* Database rows are entries of lists in `AppState`; `findUnique` is
  `List.find?`, `update where id` maps over the list.
* Autoincrement ids / generated unique codes are drawn from counters
  (`nextOrderId`, `nextItemId`, `nextTicketId`) threaded in the state;
  for a `Ticket` the generated `uniqueCode` and the row id coincide.
* External collaborators (QR-artifact rendering, notification-row
  persistence) may fail; an `Env` of success oracles models them.
* Timestamps are integer milliseconds since the epoch.
* Result messages that the claims care about are modelled as inductive
  result values mirroring the distinct `return`/`throw` sites of the
  source; the HTTP status each site produces is recovered by a
  `...Status` function that mirrors the source's status selection.
-/

namespace EventApp

/-- `prisma/schema.prisma` enum `PaymentStatus`. -/
inductive PaymentStatus
  | pending
  | paid
  | failed
  | expired
  | canceled
deriving DecidableEq, Repr

/-- `prisma/schema.prisma` enum `TicketStatus`. -/
inductive TicketStatus
  | active
  | checked_in
deriving DecidableEq, Repr

/-- `prisma/schema.prisma` model `TicketType` (fields used by the core
pipeline). `deleted` models `deletedAt != null`; `quota` is `Int?`,
`sold` is a signed integer column. -/
structure TicketType where
  id : Nat
  eventId : Nat
  quota : Option Int
  sold : Int
  price : Int
  deleted : Bool
deriving DecidableEq, Repr

/-- `prisma/schema.prisma` model `OrderItem` (an order line). -/
structure OrderItem where
  id : Nat
  ticketTypeId : Nat
  pricePerTicket : Int
deriving DecidableEq, Repr

/-- `prisma/schema.prisma` model `Order` (fields used by the core
pipeline); `items` are the nested `orderItems`. -/
structure Order where
  id : Nat
  orderCode : Nat
  userId : Nat
  totalAmount : Int
  paymentStatus : PaymentStatus
  items : List OrderItem
deriving DecidableEq, Repr

/-- `prisma/schema.prisma` model `User` (fields the pipeline reads). -/
structure User where
  id : Nat
  name : String
  email : String
deriving DecidableEq, Repr

/-- `prisma/schema.prisma` model `Event` (fields the check-in path
reads): `startTime` in epoch milliseconds, `status` a free string
(`"published"` is the active marker). -/
structure Event where
  id : Nat
  startTime : Int
  status : String
deriving DecidableEq, Repr

/-- `prisma/schema.prisma` model `Ticket`. The generated `uniqueCode`
and the autoincrement `id` are both drawn from `nextTicketId`. -/
structure Ticket where
  id : Nat
  uniqueCode : Nat
  orderItemId : Nat
  eventId : Nat
  ticketTypeId : Nat
  userId : Nat
  attendeeName : String
  attendeeEmail : String
  status : TicketStatus
  checkInTime : Option Int
  checkedInByUserId : Option Nat
  deleted : Bool
deriving DecidableEq, Repr

/-- `prisma/schema.prisma` model `Notification` (fields the claims
observe). -/
structure Notification where
  userId : Nat
  kind : String
deriving DecidableEq, Repr

/-- The database state the core pipeline touches, plus id counters. -/
structure AppState where
  ticketTypes : List TicketType
  events : List Event
  users : List User
  orders : List Order
  tickets : List Ticket
  notifications : List Notification
  nextOrderId : Nat
  nextItemId : Nat
  nextTicketId : Nat
deriving DecidableEq, Repr

/-- Success oracles for the external collaborators: `qrOk code` is
whether `qrcode.toFile` succeeds for the ticket with that generated
code, `notifyOk` whether the notification-row insert succeeds. -/
structure Env where
  qrOk : Nat → Bool
  notifyOk : Bool

/-! ## Row access helpers (Prisma queries) -/

/-- `tx.ticketType.findUnique({ where: { id, deletedAt: null } })`. -/
def findTicketType (tts : List TicketType) (i : Nat) : Option TicketType :=
  tts.find? (fun tt => tt.id == i && !tt.deleted)

/-- Relation traversal `item.ticketType` (no soft-delete filter). -/
def findTicketTypeAny (tts : List TicketType) (i : Nat) : Option TicketType :=
  tts.find? (fun tt => tt.id == i)

/-- `prisma.order.findUnique({ where: { orderCode } })`. -/
def findOrderByCode (orders : List Order) (c : Nat) : Option Order :=
  orders.find? (fun o => o.orderCode == c)

/-- `tx.order.findUnique({ where: { id } })`. -/
def findOrderById (orders : List Order) (i : Nat) : Option Order :=
  orders.find? (fun o => o.id == i)

/-- Relation traversal `order.user`. -/
def findUser (users : List User) (i : Nat) : Option User :=
  users.find? (fun u => u.id == i)

/-- `tx.ticketType.update({ where: { id }, data: { sold: { increment: 1 } } })`. -/
def incSold (tts : List TicketType) (i : Nat) : List TicketType :=
  tts.map (fun tt => if tt.id = i then { tt with sold := tt.sold + 1 } else tt)

/-- `tx.ticketType.update({ where: { id }, data: { sold: { decrement: 1 } } })`.
Prisma's `decrement` is a plain unguarded subtraction. -/
def decSold (tts : List TicketType) (i : Nat) : List TicketType :=
  tts.map (fun tt => if tt.id = i then { tt with sold := tt.sold - 1 } else tt)

/-- The per-item quota-revert loop of `cancelOrder` /
`handlePaymentCallback` (one `decrement: 1` per order item). -/
def releaseItems (tts : List TicketType) (items : List OrderItem) : List TicketType :=
  items.foldl (fun acc it => decSold acc it.ticketTypeId) tts

/-- `tx.order.update({ where: { id }, data: { paymentStatus } })`. -/
def setOrderStatus (orders : List Order) (oid : Nat) (s : PaymentStatus) : List Order :=
  orders.map (fun o => if o.id = oid then { o with paymentStatus := s } else o)

/-! ## Order creation (`OrderService.createOrder`) -/

/-- The `orderItemsData` entries accumulated by the creation loop. -/
structure OrderItemData where
  ticketTypeId : Nat
  pricePerTicket : Int
deriving DecidableEq, Repr

/-- The distinct `throw` sites of the `createOrder` transaction. -/
inductive OrderError
  | ticketTypeNotFound (i : Nat)
  | duplicateEventInRequest (eventId : Nat)
  | alreadyHasTicketForEvent (eventId : Nat)
  | noQuota (i : Nat)
  | soldOut (i : Nat)
deriving DecidableEq, Repr

/-- HTTP status of a creation failure, mirroring the catch handler:
only messages containing `'sold out'` or `'not found'` match its
substring tests (the duplicate-purchase message says "ticket", not
"order", so it falls through to 500). -/
def orderErrorStatus : OrderError → Nat
  | .ticketTypeNotFound _ => 400
  | .duplicateEventInRequest _ => 500
  | .alreadyHasTicketForEvent _ => 500
  | .noQuota _ => 500
  | .soldOut _ => 400

/-- Does `it` belong to event `eventId` (join through `ticketType`)? -/
def itemForEvent (tts : List TicketType) (eventId : Nat) (it : OrderItem) : Bool :=
  match findTicketTypeAny tts it.ticketTypeId with
  | some tt => tt.eventId == eventId
  | none => false

/-- The `where` clause of createOrder's CHECK 2 `tx.order.count`: the
order belongs to the user, is `paid` or `pending`, and some item's
ticket type belongs to the event. -/
def orderBlocksEvent (tts : List TicketType) (userId eventId : Nat) (o : Order) : Bool :=
  o.userId == userId &&
    (o.paymentStatus == .paid || o.paymentStatus == .pending) &&
    o.items.any (itemForEvent tts eventId)

/-- `tx.order.count` of CHECK 2. -/
def countActiveOrdersForEvent (orders : List Order) (tts : List TicketType)
    (userId eventId : Nat) : Nat :=
  (orders.filter (orderBlocksEvent tts userId eventId)).length

/-- The validation/reservation loop of `createOrder`: walks the
requested items, runs CHECK 1 (`processedEventIds`), CHECK 2 (existing
pending/paid order for the event), the quota checks, and increments
`sold`; returns the accumulated `orderItemsData`, the total amount and
the updated ticket types. A thrown error aborts the transaction. -/
def processItems (orders : List Order) (userId : Nat) :
    List Nat → List Nat → List TicketType →
    Except OrderError (List OrderItemData × Int × List TicketType)
  | _, [], tts => .ok ([], 0, tts)
  | processedEventIds, i :: rest, tts =>
    match findTicketType tts i with
    | none => .error (.ticketTypeNotFound i)
    | some tt =>
      if processedEventIds.contains tt.eventId then
        .error (.duplicateEventInRequest tt.eventId)
      else if 0 < countActiveOrdersForEvent orders tts userId tt.eventId then
        .error (.alreadyHasTicketForEvent tt.eventId)
      else
        match tt.quota with
        | none => .error (.noQuota i)
        | some q =>
          if q ≤ tt.sold then .error (.soldOut i)
          else
            match processItems orders userId (tt.eventId :: processedEventIds) rest
                (incSold tts i) with
            | .error e => .error e
            | .ok (data, total, tts') =>
              .ok ({ ticketTypeId := i, pricePerTicket := tt.price } :: data,
                   tt.price + total, tts')

/-- Nested `orderItems: { create: orderItemsData }` with autoincrement
ids. -/
def assignItemIds : Nat → List OrderItemData → List OrderItem
  | _, [] => []
  | n, d :: rest =>
    { id := n, ticketTypeId := d.ticketTypeId, pricePerTicket := d.pricePerTicket } ::
      assignItemIds (n + 1) rest

/-- Outcome of `OrderService.createOrder`. -/
inductive CreateOrderResult
  | ok (orderCode : Nat) (totalAmount : Int)
  | err (e : OrderError)
deriving DecidableEq, Repr

/-- `OrderService.createOrder(userId, items)`: runs the reservation
loop in a transaction, then creates the `pending` order; on any error
the transaction rolls back and the original state is returned. -/
def createOrder (userId : Nat) (items : List Nat) (st : AppState) :
    CreateOrderResult × AppState :=
  match processItems st.orders userId [] items st.ticketTypes with
  | .error e => (.err e, st)
  | .ok (data, total, tts') =>
    let oid := st.nextOrderId
    let newOrder : Order :=
      { id := oid, orderCode := oid, userId := userId, totalAmount := total,
        paymentStatus := .pending, items := assignItemIds st.nextItemId data }
    (.ok oid total,
     { st with ticketTypes := tts',
               orders := newOrder :: st.orders,
               nextOrderId := oid + 1,
               nextItemId := st.nextItemId + data.length })

/-! ## Order cancellation (`OrderService.cancelOrder`) -/

/-- Outcome of `OrderService.cancelOrder`, one constructor per
`return`/`throw` site. -/
inductive CancelResult
  | ok
  | notFound
  | notAuthorized
  | invalidState (current : PaymentStatus)
deriving DecidableEq, Repr

/-- HTTP status of a cancellation outcome (all three error messages are
in the `isUserError` list, hence 400). -/
def cancelStatus : CancelResult → Nat
  | .ok => 200
  | .notFound => 400
  | .notAuthorized => 400
  | .invalidState _ => 400

/-- `OrderService.cancelOrder(userId, orderCode)`: only the owner may
cancel, only from `pending`; on success the status becomes `canceled`
and each item's ticket type gets `sold: { decrement: 1 }`. -/
def cancelOrder (userId : Nat) (orderCode : Nat) (st : AppState) :
    CancelResult × AppState :=
  match findOrderByCode st.orders orderCode with
  | none => (.notFound, st)
  | some o =>
    if o.userId ≠ userId then (.notAuthorized, st)
    else if o.paymentStatus ≠ .pending then (.invalidState o.paymentStatus, st)
    else
      (.ok,
       { st with orders := setOrderStatus st.orders o.id .canceled,
                 ticketTypes := releaseItems st.ticketTypes o.items })

/-! ## Settlement (`OrderService._processSuccessfulOrder`) -/

/-- The ticket-generation loop of `_processSuccessfulOrder`: for each
order item, resolve `item.ticketType` (missing relation throws),
generate the ticket code, render the QR artifact (failure throws and
rolls back the transaction), and build the `Ticket` row copying the
buyer's identity (`order.user`, whose absence makes the row build
throw). Codes are drawn from the counter starting at `code`. -/
def issueTickets (env : Env) (users : List User) (o : Order)
    (tts : List TicketType) :
    Nat → List OrderItem → Except Unit (List Ticket × Nat)
  | code, [] => .ok ([], code)
  | code, it :: rest =>
    match findTicketTypeAny tts it.ticketTypeId with
    | none => .error ()
    | some tt =>
      if env.qrOk code then
        match findUser users o.userId with
        | none => .error ()
        | some u =>
          match issueTickets env users o tts (code + 1) rest with
          | .error e => .error e
          | .ok (tks, c') =>
            .ok ({ id := code, uniqueCode := code, orderItemId := it.id,
                   eventId := tt.eventId, ticketTypeId := it.ticketTypeId,
                   userId := o.userId, attendeeName := u.name,
                   attendeeEmail := u.email, status := .active,
                   checkInTime := none, checkedInByUserId := none,
                   deleted := false } :: tks, c')
      else .error ()

/-- `OrderService._processSuccessfulOrder(orderId)`: one transaction
that re-checks the order is `pending`, writes `paid`, issues one ticket
per line, and inserts the purchase-success notification row; any
failure (missing order / not pending / missing relation / QR render
failure / notification insert failure) rolls the whole transaction back
and the method returns `false`. -/
def processSuccessfulOrder (env : Env) (orderId : Nat) (st : AppState) :
    Bool × AppState :=
  match findOrderById st.orders orderId with
  | none => (false, st)
  | some o =>
    if o.paymentStatus ≠ .pending then (false, st)
    else
      match issueTickets env st.users o st.ticketTypes st.nextTicketId o.items with
      | .error _ => (false, st)
      | .ok (newTks, nextCode) =>
        if env.notifyOk then
          (true,
           { st with orders := setOrderStatus st.orders o.id .paid,
                     tickets := newTks ++ st.tickets,
                     notifications :=
                       { userId := o.userId, kind := "purchase_success" } ::
                         st.notifications,
                     nextTicketId := nextCode })
        else (false, st)

/-! ## Manual checkout (`OrderService.manualCheckout`) -/

/-- `paymentDetails` of `manualCheckout`; `paymentAmount = none` models
a value whose `Number(...)` conversion is `NaN`. -/
structure PaymentDetails where
  paymentAmount : Option Int
deriving DecidableEq, Repr

/-- Outcome of `OrderService.manualCheckout`, one constructor per
`return` site. -/
inductive ManualResult
  | ok
  | notFound
  | forbidden
  | notPending (current : PaymentStatus)
  | invalidAmount
  | insufficient (paid total : Int)
  | processingFailed
deriving DecidableEq, Repr

/-- HTTP status of a manual-checkout outcome. -/
def manualStatus : ManualResult → Nat
  | .ok => 200
  | .notFound => 404
  | .forbidden => 403
  | .notPending _ => 400
  | .invalidAmount => 400
  | .insufficient _ _ => 400
  | .processingFailed => 500

/-- `OrderService.manualCheckout(userId, orderCode, paymentDetails)`. -/
def manualCheckout (env : Env) (userId : Nat) (orderCode : Nat)
    (pd : PaymentDetails) (st : AppState) : ManualResult × AppState :=
  match findOrderByCode st.orders orderCode with
  | none => (.notFound, st)
  | some o =>
    if o.userId ≠ userId then (.forbidden, st)
    else if o.paymentStatus ≠ .pending then (.notPending o.paymentStatus, st)
    else
      match pd.paymentAmount with
      | none => (.invalidAmount, st)
      | some amt =>
        if amt < o.totalAmount then (.insufficient amt o.totalAmount, st)
        else
          let r := processSuccessfulOrder env o.id st
          if r.1 then (.ok, r.2) else (.processingFailed, r.2)

/-! ## Payment gateway callback (`OrderService.handlePaymentCallback`) -/

/-- Callback payload fields the handler reads (`order_id`,
`transaction_status`). A missing `order_id` is `none`. -/
structure CallbackPayload where
  order_id : Option Nat
  transaction_status : String
deriving DecidableEq, Repr

/-- The distinct messages `handlePaymentCallback` returns. -/
inductive CbMessage
  | missingOrderId
  | orderNotFound
  | alreadyFinalized
  | processed
deriving DecidableEq, Repr

/-- The `{ success, message }` value `handlePaymentCallback` returns to
the controller. -/
structure CallbackResult where
  success : Bool
  msg : CbMessage
deriving DecidableEq, Repr

/-- The `switch (transactionStatus)`: maps the gateway status to the
internal status and the `processSuccess` flag. -/
def mapTxStatus (s : String) : PaymentStatus × Bool :=
  if s = "capture" then (.paid, true)
  else if s = "settlement" then (.paid, true)
  else if s = "deny" then (.failed, false)
  else if s = "cancel" then (.failed, false)
  else if s = "expire" then (.expired, false)
  else if s = "pending" then (.pending, false)
  else (.failed, false)

/-- `OrderService.handlePaymentCallback(payload)`: acknowledges missing
ids and unknown or already-finalized orders; otherwise maps the gateway
status; `paid` runs `_processSuccessfulOrder` (its failure is logged,
the callback still acknowledges); failed/expired statuses are written
together with one quota decrement per item in one transaction; a
`pending` mapped status changes nothing. -/
def handlePaymentCallback (env : Env) (payload : CallbackPayload)
    (st : AppState) : CallbackResult × AppState :=
  match payload.order_id with
  | none => ({ success := false, msg := .missingOrderId }, st)
  | some code =>
    match findOrderByCode st.orders code with
    | none => ({ success := false, msg := .orderNotFound }, st)
    | some o =>
      if o.paymentStatus ≠ .pending then
        ({ success := true, msg := .alreadyFinalized }, st)
      else
        let ms := mapTxStatus payload.transaction_status
        if ms.1 ≠ .pending then
          if ms.2 then
            ({ success := true, msg := .processed },
             (processSuccessfulOrder env o.id st).2)
          else
            ({ success := true, msg := .processed },
             { st with orders := setOrderStatus st.orders o.id ms.1,
                       ticketTypes := releaseItems st.ticketTypes o.items })
        else ({ success := true, msg := .processed }, st)

/-- `OrderController.handlePaymentCallback`: whatever the service
returns, the controller responds `200` with the result message
(`res.status(200).json({ message: ... })`). -/
def handlePaymentCallbackHttp (env : Env) (payload : CallbackPayload)
    (st : AppState) : (Nat × CbMessage) × AppState :=
  let r := handlePaymentCallback env payload st
  ((200, r.1.msg), r.2)

/-! ## Check-in (`TicketService.checkInTicket`) -/

/-- Outcome of `TicketService.checkInTicket`, one constructor per
`return` site; `notOpen` carries the computed opening instant the
message interpolates. -/
inductive CheckInResult
  | ok (uniqueCode : Nat) (checkInTime : Int)
  | notFound
  | eventNotActive (current : String)
  | notOpen (opensAt : Int)
  | alreadyCheckedIn
  | internalError
deriving DecidableEq, Repr

/-- HTTP status of a check-in outcome. -/
def checkInStatus : CheckInResult → Nat
  | .ok _ _ => 200
  | .notFound => 404
  | .eventNotActive _ => 400
  | .notOpen _ => 400
  | .alreadyCheckedIn => 400
  | .internalError => 500

/-- One hour in milliseconds (`60 * 60 * 1000`). -/
def checkinLeadMs : Int := 3600000

/-- `TicketService.checkInTicket(uniqueCode, adminUserId)` at current
time `now`: lookup (soft-deleted excluded), event-status check,
check-in-window check, already-checked-in check, then the one-row
update; the check-in-success notification insert is try/caught, its
failure does not fail the check-in. A missing event relation makes the
handler throw into its catch (500). -/
def checkInTicket (notifyOk : Bool) (uniqueCode adminUserId : Nat) (now : Int)
    (st : AppState) : CheckInResult × AppState :=
  match st.tickets.find? (fun t => t.uniqueCode == uniqueCode && !t.deleted) with
  | none => (.notFound, st)
  | some t =>
    match st.events.find? (fun e => e.id == t.eventId) with
    | none => (.internalError, st)
    | some ev =>
      if ev.status ≠ "published" then (.eventNotActive ev.status, st)
      else
        let checkinStart := ev.startTime - checkinLeadMs
        if now < checkinStart then (.notOpen checkinStart, st)
        else if t.status = .checked_in then (.alreadyCheckedIn, st)
        else
          let tickets' := st.tickets.map (fun x =>
            if x.id = t.id then
              { x with status := .checked_in, checkInTime := some now,
                       checkedInByUserId := some adminUserId }
            else x)
          let st' := { st with tickets := tickets' }
          if notifyOk then
            (.ok uniqueCode now,
             { st' with notifications :=
                { userId := t.userId, kind := "checkin_success" } ::
                  st'.notifications })
          else (.ok uniqueCode now, st')

/-! ## Invariants and reachability -/

/-- Number of order items in `items` referencing ticket type `t`. -/
def countTT : List OrderItem → Nat → Nat
  | [], _ => 0
  | it :: rest, t => (if it.ticketTypeId = t then 1 else 0) + countTT rest t

/-- Number of accumulated `orderItemsData` entries referencing ticket
type `t`. -/
def countTTData : List OrderItemData → Nat → Nat
  | [], _ => 0
  | d :: rest, t => (if d.ticketTypeId = t then 1 else 0) + countTTData rest t

/-- Units of `sold` held by `pending` orders for ticket type `t`: the
release paths (cancel, failed/expired callback) run only on `pending`
orders, one decrement per item. -/
def pendingHolds : List Order → Nat → Nat
  | [], _ => 0
  | o :: rest, t =>
    (if o.paymentStatus = .pending then countTT o.items t else 0) + pendingHolds rest t

/-- The sold counter respects the quota when one is defined. -/
def boundOK (tt : TicketType) : Prop :=
  ∀ q ∈ tt.quota, tt.sold ≤ q

instance (tt : TicketType) : Decidable (boundOK tt) :=
  match h : tt.quota with
  | none => isTrue (by simp [boundOK, h])
  | some q => decidable_of_iff (tt.sold ≤ q) (by simp [boundOK, h])

/-- Well-formedness of the application state: unique row ids,
counter-freshness, ticket code discipline, and the ledger invariant
(each `pending` order holds one unit of `sold` per item; `sold` never
exceeds a defined quota). -/
def WF (st : AppState) : Prop :=
  (st.ticketTypes.map (fun tt => tt.id)).Nodup ∧
  (st.orders.map (fun o => o.id)).Nodup ∧
  (∀ o ∈ st.orders, o.id < st.nextOrderId ∧ o.orderCode < st.nextOrderId) ∧
  (st.tickets.map (fun tk => tk.id)).Nodup ∧
  (∀ tk ∈ st.tickets, tk.id < st.nextTicketId ∧ tk.uniqueCode = tk.id) ∧
  (∀ tt ∈ st.ticketTypes,
    (pendingHolds st.orders tt.id : Int) ≤ tt.sold ∧ boundOK tt)

instance (st : AppState) : Decidable (WF st) := by
  unfold WF; infer_instance

/-- States reachable by the core operations from an initial state with
no orders and no tickets whose ticket types satisfy `0 ≤ sold ≤ quota`. -/
inductive Reachable : AppState → Prop
  | init (st : AppState) :
      st.orders = [] → st.tickets = [] →
      (st.ticketTypes.map (fun tt => tt.id)).Nodup →
      (∀ tt ∈ st.ticketTypes, 0 ≤ tt.sold ∧ boundOK tt) →
      Reachable st
  | create (u : Nat) (items : List Nat) (st : AppState) :
      Reachable st → Reachable (createOrder u items st).2
  | cancel (u c : Nat) (st : AppState) :
      Reachable st → Reachable (cancelOrder u c st).2
  | settle (env : Env) (oid : Nat) (st : AppState) :
      Reachable st → Reachable (processSuccessfulOrder env oid st).2
  | manual (env : Env) (u c : Nat) (pd : PaymentDetails) (st : AppState) :
      Reachable st → Reachable (manualCheckout env u c pd st).2
  | callback (env : Env) (p : CallbackPayload) (st : AppState) :
      Reachable st → Reachable (handlePaymentCallback env p st).2
  | checkin (notifyOk : Bool) (code admin : Nat) (now : Int) (st : AppState) :
      Reachable st → Reachable (checkInTicket notifyOk code admin now st).2

/-! ## Concrete fixtures (used to instantiate theorems on explicit inputs) -/

/-- A buyer. -/
def exUser : User := { id := 7, name := "Alice", email := "alice@example.com" }

/-- Ticket type for event 10 with quota 2. -/
def exTT1 : TicketType :=
  { id := 1, eventId := 10, quota := some 2, sold := 0, price := 50, deleted := false }

/-- Ticket type for event 11 with quota 1. -/
def exTT2 : TicketType :=
  { id := 2, eventId := 11, quota := some 1, sold := 0, price := 30, deleted := false }

/-- A second ticket type of event 10 (same event as `exTT1`). -/
def exTT3 : TicketType :=
  { id := 3, eventId := 10, quota := some 5, sold := 0, price := 20, deleted := false }

/-- A sold-out ticket type: quota 1, sold 1. -/
def exTTfull : TicketType :=
  { id := 1, eventId := 10, quota := some 1, sold := 1, price := 50, deleted := false }

/-- `exTT1` after one unit was reserved. -/
def exTT1sold : TicketType :=
  { id := 1, eventId := 10, quota := some 2, sold := 1, price := 50, deleted := false }

/-- A published event starting at t = 10000000 ms. -/
def exEvent : Event := { id := 10, startTime := 10000000, status := "published" }

/-- Initial state: two ticket types, one event, one user, nothing sold. -/
def exSt0 : AppState :=
  { ticketTypes := [exTT1, exTT2], events := [exEvent], users := [exUser],
    orders := [], tickets := [], notifications := [],
    nextOrderId := 100, nextItemId := 200, nextTicketId := 300 }

/-- Initial state with two ticket types of the same event. -/
def exStDup : AppState :=
  { ticketTypes := [exTT1, exTT3], events := [exEvent], users := [exUser],
    orders := [], tickets := [], notifications := [],
    nextOrderId := 100, nextItemId := 200, nextTicketId := 300 }

/-- Initial state whose only ticket type is sold out. -/
def exStFull : AppState :=
  { ticketTypes := [exTTfull], events := [exEvent], users := [exUser],
    orders := [], tickets := [], notifications := [],
    nextOrderId := 100, nextItemId := 200, nextTicketId := 300 }

/-- Environment in which all external collaborators succeed. -/
def envAllOk : Env := { qrOk := fun _ => true, notifyOk := true }

/-- Environment in which the notification-row insert fails. -/
def envNoNotify : Env := { qrOk := fun _ => true, notifyOk := false }

/-- `exSt0` after user 7 created an order (code 100) for ticket type 1. -/
def exStPending : AppState := (createOrder 7 [1] exSt0).2

/-- `exStPending` after the order was settled as paid (ticket 300 issued). -/
def exStPaid : AppState := (processSuccessfulOrder envAllOk 100 exStPending).2

/-- A pending order whose single item references ticket type 1. -/
def exOrderHold : Order :=
  { id := 50, orderCode := 50, userId := 7, totalAmount := 50,
    paymentStatus := .pending,
    items := [{ id := 60, ticketTypeId := 1, pricePerTicket := 50 }] }

/-- A state holding `exOrderHold` while ticket type 1 has `sold = 0`:
the release path runs an unguarded decrement here. -/
def exStZeroSold : AppState :=
  { ticketTypes := [exTT1], events := [], users := [exUser],
    orders := [exOrderHold], tickets := [], notifications := [],
    nextOrderId := 100, nextItemId := 200, nextTicketId := 300 }

/-- The order of `exStPaid`, as a literal (order 100 of user 7, paid). -/
def exOrderPaid : Order :=
  { id := 100, orderCode := 100, userId := 7, totalAmount := 50,
    paymentStatus := .paid,
    items := [{ id := 200, ticketTypeId := 1, pricePerTicket := 50 }] }

/-- The order of `exStPending`, as a literal (order 100 of user 7, pending). -/
def exOrderPending : Order :=
  { id := 100, orderCode := 100, userId := 7, totalAmount := 50,
    paymentStatus := .pending,
    items := [{ id := 200, ticketTypeId := 1, pricePerTicket := 50 }] }

/-- The ticket issued in `exStPaid`, as a literal. -/
def exTicket300 : Ticket :=
  { id := 300, uniqueCode := 300, orderItemId := 200, eventId := 10,
    ticketTypeId := 1, userId := 7, attendeeName := "Alice",
    attendeeEmail := "alice@example.com", status := .active,
    checkInTime := none, checkedInByUserId := none, deleted := false }

/-! ## Helper lemmas: queries and row updates -/

theorem findTicketType_eq_some {tts : List TicketType} {i : Nat} {tt : TicketType}
    (h : findTicketType tts i = some tt) :
    tt ∈ tts ∧ tt.id = i ∧ tt.deleted = false := by
  have hm := List.mem_of_find?_eq_some h
  have hp := List.find?_some h
  simp only [Bool.and_eq_true, beq_iff_eq, Bool.not_eq_true'] at hp
  exact ⟨hm, hp.1, hp.2⟩

theorem findOrderByCode_eq_some {orders : List Order} {c : Nat} {o : Order}
    (h : findOrderByCode orders c = some o) : o ∈ orders ∧ o.orderCode = c := by
  have hm := List.mem_of_find?_eq_some h
  have hp := List.find?_some h
  simp only [beq_iff_eq] at hp
  exact ⟨hm, hp⟩

theorem findOrderById_eq_some {orders : List Order} {i : Nat} {o : Order}
    (h : findOrderById orders i = some o) : o ∈ orders ∧ o.id = i := by
  have hm := List.mem_of_find?_eq_some h
  have hp := List.find?_some h
  simp only [beq_iff_eq] at hp
  exact ⟨hm, hp⟩

theorem incSold_ids (tts : List TicketType) (i : Nat) :
    (incSold tts i).map (fun tt => tt.id) = tts.map (fun tt => tt.id) := by
  unfold incSold
  rw [List.map_map]
  apply List.map_congr_left
  intro a _
  by_cases h : a.id = i <;> simp [Function.comp, h]

theorem decSold_ids (tts : List TicketType) (i : Nat) :
    (decSold tts i).map (fun tt => tt.id) = tts.map (fun tt => tt.id) := by
  unfold decSold
  rw [List.map_map]
  apply List.map_congr_left
  intro a _
  by_cases h : a.id = i <;> simp [Function.comp, h]

theorem setOrderStatus_ids (orders : List Order) (oid : Nat) (s : PaymentStatus) :
    (setOrderStatus orders oid s).map (fun o => o.id) = orders.map (fun o => o.id) := by
  unfold setOrderStatus
  rw [List.map_map]
  apply List.map_congr_left
  intro a _
  by_cases h : a.id = oid <;> simp [Function.comp, h]

theorem findTicketType_incSold (tts : List TicketType) (i j : Nat) :
    findTicketType (incSold tts j) i =
      (findTicketType tts i).map
        (fun tt => if tt.id = j then { tt with sold := tt.sold + 1 } else tt) := by
  unfold findTicketType incSold
  rw [List.find?_map]
  have hp : ((fun tt : TicketType => tt.id == i && !tt.deleted) ∘
      (fun tt => if tt.id = j then { tt with sold := tt.sold + 1 } else tt)) =
      (fun tt : TicketType => tt.id == i && !tt.deleted) := by
    funext a
    by_cases h : a.id = j <;> simp [Function.comp, h]
  rw [hp]

theorem findTicketTypeAny_incSold (tts : List TicketType) (i j : Nat) :
    findTicketTypeAny (incSold tts j) i =
      (findTicketTypeAny tts i).map
        (fun tt => if tt.id = j then { tt with sold := tt.sold + 1 } else tt) := by
  unfold findTicketTypeAny incSold
  rw [List.find?_map]
  have hp : ((fun tt : TicketType => tt.id == i) ∘
      (fun tt => if tt.id = j then { tt with sold := tt.sold + 1 } else tt)) =
      (fun tt : TicketType => tt.id == i) := by
    funext a
    by_cases h : a.id = j <;> simp [Function.comp, h]
  rw [hp]

theorem itemForEvent_incSold (tts : List TicketType) (j e : Nat) (it : OrderItem) :
    itemForEvent (incSold tts j) e it = itemForEvent tts e it := by
  unfold itemForEvent
  rw [findTicketTypeAny_incSold]
  cases h : findTicketTypeAny tts it.ticketTypeId with
  | none => rfl
  | some tt => by_cases hj : tt.id = j <;> simp [hj]

theorem countActiveOrdersForEvent_incSold (orders : List Order)
    (tts : List TicketType) (j u e : Nat) :
    countActiveOrdersForEvent orders (incSold tts j) u e =
      countActiveOrdersForEvent orders tts u e := by
  have hfe : itemForEvent (incSold tts j) e = itemForEvent tts e :=
    funext (fun it => itemForEvent_incSold tts j e it)
  unfold countActiveOrdersForEvent orderBlocksEvent
  rw [hfe]

theorem soldUpd_eq (a : TicketType) {x y : Int} (h : x = y) :
    ({ a with sold := x } : TicketType) = { a with sold := y } := by rw [h]

theorem releaseItems_cons (tts : List TicketType) (it : OrderItem)
    (rest : List OrderItem) :
    releaseItems tts (it :: rest) = releaseItems (decSold tts it.ticketTypeId) rest := rfl

theorem releaseItems_map : ∀ (items : List OrderItem) (tts : List TicketType),
    releaseItems tts items =
      tts.map (fun tt => { tt with sold := tt.sold - (countTT items tt.id : Int) })
  | [], tts => by
      have : tts.map
          (fun tt => { tt with sold := tt.sold - (countTT [] tt.id : Int) }) =
          tts.map id :=
        List.map_congr_left (fun a _ => by cases a; simp [countTT])
      rw [this, List.map_id]
      rfl
  | it :: rest, tts => by
      rw [releaseItems_cons, releaseItems_map rest]
      unfold decSold
      rw [List.map_map]
      apply List.map_congr_left
      intro a _
      by_cases h : a.id = it.ticketTypeId
      · simp only [Function.comp, if_pos h, countTT, h.symm, if_pos]
        apply soldUpd_eq
        push_cast
        ring
      · have hne : ¬ it.ticketTypeId = a.id := fun hh => h hh.symm
        simp only [Function.comp, if_neg h, countTT, if_neg hne]
        apply soldUpd_eq
        push_cast
        ring

theorem setOrderStatus_not_mem {orders : List Order} {oid : Nat} {s : PaymentStatus}
    (h : ∀ o ∈ orders, o.id ≠ oid) : setOrderStatus orders oid s = orders := by
  unfold setOrderStatus
  have heq : orders.map
      (fun o => if o.id = oid then { o with paymentStatus := s } else o) =
      orders.map id :=
    List.map_congr_left (fun o ho => by simp [h o ho])
  rw [heq, List.map_id]

theorem pendingHolds_setOrderStatus :
    ∀ {orders : List Order} {o : Order} {s : PaymentStatus} (t : Nat),
    (orders.map (fun x => x.id)).Nodup → o ∈ orders → o.paymentStatus = .pending →
    s ≠ .pending →
    pendingHolds (setOrderStatus orders o.id s) t + countTT o.items t =
      pendingHolds orders t := by
  intro orders
  induction orders with
  | nil => intro o s t _ hm; cases hm
  | cons hd rest ih =>
    intro o s t hn hm hp hs
    rw [List.map_cons, List.nodup_cons] at hn
    rcases List.mem_cons.mp hm with rfl | hmem
    · have hrest : setOrderStatus rest o.id s = rest :=
        setOrderStatus_not_mem (fun r hr hid => hn.1 (hid ▸ List.mem_map_of_mem _ hr))
      show pendingHolds ((if o.id = o.id then { o with paymentStatus := s } else o) ::
          setOrderStatus rest o.id s) t + countTT o.items t = _
      rw [if_pos rfl, hrest]
      simp only [pendingHolds, if_neg hs, if_pos hp]
      omega
    · have hne : ¬ hd.id = o.id := by
        intro hh
        exact hn.1 (hh ▸ List.mem_map_of_mem _ hmem)
      show pendingHolds ((if hd.id = o.id then { hd with paymentStatus := s } else hd) ::
          setOrderStatus rest o.id s) t + countTT o.items t = _
      rw [if_neg hne]
      simp only [pendingHolds]
      have := ih t hn.2 hmem hp hs
      omega

theorem countTT_assignItemIds : ∀ (data : List OrderItemData) (n t : Nat),
    countTT (assignItemIds n data) t = countTTData data t
  | [], _, _ => rfl
  | d :: rest, n, t => by
      simp [assignItemIds, countTT, countTTData, countTT_assignItemIds rest]

/-! ## Helper lemmas: the order-creation loop -/

theorem processItems_ok_tts {orders : List Order} {u : Nat} :
    ∀ (items evs : List Nat) (tts : List TicketType)
      {data : List OrderItemData} {total : Int} {tts' : List TicketType},
    processItems orders u evs items tts = .ok (data, total, tts') →
    tts' = tts.map
      (fun tt => { tt with sold := tt.sold + (countTTData data tt.id : Int) })
  | [], evs, tts, data, total, tts', h => by
      simp only [processItems, Except.ok.injEq, Prod.mk.injEq] at h
      obtain ⟨h1, _, h3⟩ := h
      subst h1 h3
      have heq : tts.map
          (fun tt => { tt with sold := tt.sold + (countTTData [] tt.id : Int) }) =
          tts.map id :=
        List.map_congr_left (fun a _ => by cases a; simp [countTTData])
      rw [heq, List.map_id]
  | i :: rest, evs, tts, data, total, tts', h => by
      simp only [processItems] at h
      split at h
      · exact absurd h (by simp)
      next tt hf =>
        split at h
        · exact absurd h (by simp)
        · split at h
          · exact absurd h (by simp)
          · split at h
            · exact absurd h (by simp)
            next q hq =>
              split at h
              · exact absurd h (by simp)
              next hsold =>
                split at h
                · exact absurd h (by simp)
                next data0 total0 tts0 hrec =>
                  simp only [Except.ok.injEq, Prod.mk.injEq] at h
                  obtain ⟨h1, _, h3⟩ := h
                  subst h1 h3
                  have hmem := findTicketType_eq_some hf
                  have hrec2 := processItems_ok_tts rest
                    (tt.eventId :: evs) (incSold tts i) hrec
                  rw [hrec2]
                  unfold incSold
                  rw [List.map_map]
                  apply List.map_congr_left
                  intro a _
                  by_cases ha : a.id = i
                  · simp only [Function.comp, if_pos ha, countTTData]
                    rw [if_pos ha.symm]
                    apply soldUpd_eq
                    push_cast
                    ring
                  · have hne : ¬ i = a.id := fun hh => ha hh.symm
                    simp only [Function.comp, if_neg ha, countTTData, if_neg hne]
                    apply soldUpd_eq
                    push_cast
                    ring

theorem processItems_boundOK {orders : List Order} {u : Nat} :
    ∀ (items evs : List Nat) (tts : List TicketType)
      {data : List OrderItemData} {total : Int} {tts' : List TicketType},
    (tts.map (fun tt => tt.id)).Nodup →
    (∀ tt ∈ tts, boundOK tt) →
    processItems orders u evs items tts = .ok (data, total, tts') →
    ∀ tt' ∈ tts', boundOK tt'
  | [], evs, tts, data, total, tts', hn, hb, h => by
      simp only [processItems, Except.ok.injEq, Prod.mk.injEq] at h
      obtain ⟨_, _, h3⟩ := h
      subst h3
      exact hb
  | i :: rest, evs, tts, data, total, tts', hn, hb, h => by
      simp only [processItems] at h
      split at h
      · exact absurd h (by simp)
      next tt hf =>
        split at h
        · exact absurd h (by simp)
        · split at h
          · exact absurd h (by simp)
          · split at h
            · exact absurd h (by simp)
            next q hq =>
              split at h
              · exact absurd h (by simp)
              next hsold =>
                split at h
                · exact absurd h (by simp)
                next data0 total0 tts0 hrec =>
                  simp only [Except.ok.injEq, Prod.mk.injEq] at h
                  obtain ⟨_, _, h3⟩ := h
                  subst h3
                  obtain ⟨htmem, htid, _⟩ := findTicketType_eq_some hf
                  refine processItems_boundOK rest (tt.eventId :: evs)
                    (incSold tts i) ?_ ?_ hrec
                  · rw [incSold_ids]
                    exact hn
                  · intro x' hx'
                    unfold incSold at hx'
                    obtain ⟨x, hx, rfl⟩ := List.mem_map.mp hx'
                    by_cases hxi : x.id = i
                    · have hxtt : x = tt :=
                        List.inj_on_of_nodup_map hn hx htmem (by rw [hxi, htid])
                      subst hxtt
                      rw [if_pos hxi]
                      intro q' hq'
                      have hsome : x.quota = some q' := by simpa using hq'
                      rw [hq] at hsome
                      have hqq : q = q' := Option.some.inj hsome
                      show x.sold + 1 ≤ q'
                      omega
                    · rw [if_neg hxi]
                      exact hb x hx

/-! ## Helper lemmas: ticket issuance -/

theorem issueTickets_ok {env : Env} {users : List User} {o : Order}
    {tts : List TicketType} :
    ∀ (items : List OrderItem) (code : Nat) {tks : List Ticket} {c' : Nat},
    issueTickets env users o tts code items = .ok (tks, c') →
    c' = code + tks.length ∧
    tks.length = items.length ∧
    tks.map (fun tk => tk.id) = List.range' code items.length ∧
    (∀ tk ∈ tks, tk.uniqueCode = tk.id) ∧
    tks.map (fun tk => tk.orderItemId) = items.map (fun it => it.id) ∧
    (∀ k, k < items.length → env.qrOk (code + k) = true) ∧
    (∀ tk ∈ tks, tk.userId = o.userId ∧ tk.status = .active ∧
      ∃ u, findUser users o.userId = some u ∧
        tk.attendeeName = u.name ∧ tk.attendeeEmail = u.email)
  | [], code, tks, c', h => by
      simp only [issueTickets, Except.ok.injEq, Prod.mk.injEq] at h
      obtain ⟨h1, h2⟩ := h
      subst h1 h2
      refine ⟨rfl, rfl, rfl, ?_, rfl, ?_, ?_⟩ <;> intro k hk <;> cases hk
  | it :: rest, code, tks, c', h => by
      simp only [issueTickets] at h
      split at h
      · exact absurd h (by simp)
      next tt htt =>
        split at h
        next hqr =>
          split at h
          · exact absurd h (by simp)
          next u hu =>
            split at h
            · exact absurd h (by simp)
            next tks0 c0 hrec =>
              simp only [Except.ok.injEq, Prod.mk.injEq] at h
              obtain ⟨h1, h2⟩ := h
              subst h1 h2
              obtain ⟨ih1, ih2, ih3, ih4, ih5, ih6, ih7⟩ :=
                issueTickets_ok rest (code + 1) hrec
              refine ⟨by simp [ih1]; omega, by simp [ih2], ?_, ?_, ?_, ?_, ?_⟩
              · simp only [List.map_cons, List.length_cons, List.range'_succ]
                rw [ih3]
              · intro tk htk
                rcases List.mem_cons.mp htk with rfl | hmem
                · rfl
                · exact ih4 tk hmem
              · simp only [List.map_cons]
                rw [ih5]
              · intro k hk
                cases k with
                | zero => exact hqr
                | succ k =>
                  have h2 := ih6 k (by simp at hk; omega)
                  have e : code + (k + 1) = (code + 1) + k := by omega
                  rwa [e]
              · intro tk htk
                rcases List.mem_cons.mp htk with rfl | hmem
                · exact ⟨rfl, rfl, u, hu, rfl, rfl⟩
                · exact ih7 tk hmem
        · exact absurd h (by simp)

theorem issueTickets_exists {env : Env} {users : List User} {o : Order}
    {tts : List TicketType} {u : User} (hu : findUser users o.userId = some u) :
    ∀ (items : List OrderItem) (code : Nat),
    (∀ it ∈ items, (findTicketTypeAny tts it.ticketTypeId).isSome = true) →
    (∀ k, k < items.length → env.qrOk (code + k) = true) →
    ∃ tks c', issueTickets env users o tts code items = .ok (tks, c')
  | [], code, _, _ => ⟨[], code, rfl⟩
  | it :: rest, code, hrel, hqr => by
      have hit := hrel it (List.mem_cons_self it rest)
      obtain ⟨tt, htt⟩ := Option.isSome_iff_exists.mp hit
      obtain ⟨tks0, c0, h0⟩ := issueTickets_exists hu rest (code + 1)
        (fun x hx => hrel x (List.mem_cons_of_mem it hx))
        (fun k hk => by
          have h2 := hqr (k + 1) (by simp; omega)
          have e : code + (k + 1) = (code + 1) + k := by omega
          rwa [e] at h2)
      have hqr0 : env.qrOk code = true := hqr 0 (by simp)
      refine ⟨{ id := code, uniqueCode := code, orderItemId := it.id,
                eventId := tt.eventId, ticketTypeId := it.ticketTypeId,
                userId := o.userId, attendeeName := u.name,
                attendeeEmail := u.email, status := .active, checkInTime := none,
                checkedInByUserId := none, deleted := false } :: tks0, c0, ?_⟩
      simp only [issueTickets, htt, hqr0, if_true, hu, h0]

/-! ## Helper lemmas: settlement -/

theorem processSuccessfulOrder_notifyFail {env : Env} {oid : Nat} {st : AppState}
    (h : env.notifyOk = false) : processSuccessfulOrder env oid st = (false, st) := by
  unfold processSuccessfulOrder
  split
  · rfl
  · split
    · rfl
    · split
      · rfl
      · simp [h]

theorem processSuccessfulOrder_ok {env : Env} {oid : Nat} {st : AppState} {o : Order}
    (hf : findOrderById st.orders oid = some o)
    (hp : o.paymentStatus = .pending)
    {tks : List Ticket} {c' : Nat}
    (hiss : issueTickets env st.users o st.ticketTypes st.nextTicketId o.items =
      .ok (tks, c'))
    (hn : env.notifyOk = true) :
    processSuccessfulOrder env oid st =
      (true,
       { st with orders := setOrderStatus st.orders o.id .paid,
                 tickets := tks ++ st.tickets,
                 notifications :=
                   { userId := o.userId, kind := "purchase_success" } ::
                     st.notifications,
                 nextTicketId := c' }) := by
  simp [processSuccessfulOrder, hf, hp, hiss, hn]

/-! ## Preservation of well-formedness -/

theorem WF_statusRelease {st : AppState} {o : Order} {s : PaymentStatus}
    (hWF : WF st) (hm : o ∈ st.orders) (hp : o.paymentStatus = .pending)
    (hs : s ≠ .pending) :
    WF { st with orders := setOrderStatus st.orders o.id s,
                 ticketTypes := releaseItems st.ticketTypes o.items } := by
  obtain ⟨hT, hO, hObnd, hK, hKbnd, hInv⟩ := hWF
  refine ⟨?_, ?_, ?_, hK, hKbnd, ?_⟩
  · show ((releaseItems st.ticketTypes o.items).map (fun tt => tt.id)).Nodup
    rw [releaseItems_map, List.map_map]
    have hcomp : ((fun tt : TicketType => tt.id) ∘
        (fun tt => { tt with sold := tt.sold - (countTT o.items tt.id : Int) })) =
        (fun tt : TicketType => tt.id) := by funext a; rfl
    rw [hcomp]
    exact hT
  · show ((setOrderStatus st.orders o.id s).map (fun x => x.id)).Nodup
    rw [setOrderStatus_ids]
    exact hO
  · intro x hx
    obtain ⟨y, hy, rfl⟩ := List.mem_map.mp hx
    by_cases hid : y.id = o.id
    · rw [if_pos hid]
      exact hObnd y hy
    · rw [if_neg hid]
      exact hObnd y hy
  · intro tt' htt'
    have htt2 : tt' ∈ releaseItems st.ticketTypes o.items := htt'
    rw [releaseItems_map] at htt2
    obtain ⟨tt, htm, rfl⟩ := List.mem_map.mp htt2
    have hph := pendingHolds_setOrderStatus tt.id hO hm hp hs
    have hle := (hInv tt htm).1
    constructor
    · show (pendingHolds (setOrderStatus st.orders o.id s) tt.id : Int) ≤
        tt.sold - (countTT o.items tt.id : Int)
      omega
    · intro q hq
      have hb := (hInv tt htm).2 q hq
      show tt.sold - (countTT o.items tt.id : Int) ≤ q
      omega

theorem WF_cancelOrder (u c : Nat) {st : AppState} (h : WF st) :
    WF (cancelOrder u c st).2 := by
  unfold cancelOrder
  split
  · exact h
  next o hf =>
    split
    · exact h
    · split
      · exact h
      next hp =>
        have hm := (findOrderByCode_eq_some hf).1
        exact WF_statusRelease h hm (not_not.mp hp) (by simp)

theorem WF_createOrder (u : Nat) (items : List Nat) {st : AppState} (h : WF st) :
    WF (createOrder u items st).2 := by
  unfold createOrder
  split
  · exact h
  next data total tts' hok =>
    obtain ⟨hT, hO, hObnd, hK, hKbnd, hInv⟩ := h
    have htts := processItems_ok_tts items [] st.ticketTypes hok
    subst htts
    dsimp only
    refine ⟨?_, ?_, ?_, hK, ?_, ?_⟩
    · rw [List.map_map]
      have hcomp : ((fun tt : TicketType => tt.id) ∘
          (fun tt => { tt with sold := tt.sold + (countTTData data tt.id : Int) })) =
          (fun tt : TicketType => tt.id) := by funext a; rfl
      rw [hcomp]
      exact hT
    · simp only [List.map_cons, List.nodup_cons]
      refine ⟨?_, hO⟩
      intro hmem
      obtain ⟨y, hy, hid⟩ := List.mem_map.mp hmem
      have := (hObnd y hy).1
      omega
    · intro x hx
      rcases List.mem_cons.mp hx with rfl | hmem
      · exact ⟨Nat.lt_succ_self _, Nat.lt_succ_self _⟩
      · have := hObnd x hmem
        refine ⟨?_, ?_⟩ <;> dsimp only <;> omega
    · exact hKbnd
    · intro tt' htt'
      obtain ⟨tt, htm, rfl⟩ := List.mem_map.mp htt'
      constructor
      · have hle := (hInv tt htm).1
        simp [pendingHolds, countTT_assignItemIds]
        omega
      · exact processItems_boundOK items [] st.ticketTypes hT
          (fun x hx => (hInv x hx).2) hok _ (List.mem_map_of_mem _ htm)

theorem WF_processSuccessfulOrder (env : Env) (oid : Nat) {st : AppState}
    (h : WF st) : WF (processSuccessfulOrder env oid st).2 := by
  unfold processSuccessfulOrder
  split
  · exact h
  next o hf =>
    split
    · exact h
    next hp =>
      split
      · exact h
      next tks c' hiss =>
        split
        next hn =>
          obtain ⟨hT, hO, hObnd, hK, hKbnd, hInv⟩ := h
          have hm := (findOrderById_eq_some hf).1
          have hp' := not_not.mp hp
          obtain ⟨ihc, ihlen, ihids, ihcode, _, _, _⟩ :=
            issueTickets_ok o.items st.nextTicketId hiss
          have hidset : ∀ tk ∈ tks, st.nextTicketId ≤ tk.id ∧ tk.id < c' := by
            intro tk htk
            have hmm : tk.id ∈ tks.map (fun tk => tk.id) :=
              List.mem_map_of_mem _ htk
            rw [ihids] at hmm
            have := List.mem_range'_1.mp hmm
            omega
          dsimp only
          refine ⟨hT, ?_, ?_, ?_, ?_, ?_⟩
          · rw [setOrderStatus_ids]
            exact hO
          · intro x hx
            obtain ⟨y, hy, rfl⟩ := List.mem_map.mp hx
            by_cases hid : y.id = o.id
            · rw [if_pos hid]
              exact hObnd y hy
            · rw [if_neg hid]
              exact hObnd y hy
          · rw [List.map_append]
            rw [List.nodup_append]
            refine ⟨?_, hK, ?_⟩
            · rw [ihids]
              exact List.nodup_range' _ _ 1 (by norm_num)
            · intro a ha hb
              obtain ⟨tk, htk, rfl⟩ := List.mem_map.mp ha
              obtain ⟨tko, htko, hido⟩ := List.mem_map.mp hb
              have h1 := (hidset tk htk).1
              have h2 := (hKbnd tko htko).1
              omega
          · intro tk htk
            rcases List.mem_append.mp htk with hnew | hold
            · exact ⟨(hidset tk hnew).2, ihcode tk hnew⟩
            · have hb := hKbnd tk hold
              refine ⟨?_, hb.2⟩
              dsimp only
              omega
          · intro tt htt
            have hph := pendingHolds_setOrderStatus tt.id hO hm hp'
              (show PaymentStatus.paid ≠ .pending by simp)
            have hle := (hInv tt htt).1
            refine ⟨?_, (hInv tt htt).2⟩
            dsimp only
            omega
        · exact h

theorem WF_manualCheckout (env : Env) (u c : Nat) (pd : PaymentDetails)
    {st : AppState} (h : WF st) : WF (manualCheckout env u c pd st).2 := by
  unfold manualCheckout
  split
  · exact h
  next o hf =>
    split
    · exact h
    · split
      · exact h
      · split
        · exact h
        · split
          · exact h
          · dsimp only
            split
            · exact WF_processSuccessfulOrder env o.id h
            · exact WF_processSuccessfulOrder env o.id h

theorem WF_handlePaymentCallback (env : Env) (p : CallbackPayload)
    {st : AppState} (h : WF st) : WF (handlePaymentCallback env p st).2 := by
  unfold handlePaymentCallback
  split
  · exact h
  · split
    · exact h
    next o hf =>
      split
      · exact h
      next hp =>
        dsimp only
        split
        next hms =>
          split
          · exact WF_processSuccessfulOrder env o.id h
          · exact WF_statusRelease h (findOrderByCode_eq_some hf).1
              (not_not.mp hp) hms
        · exact h

theorem WF_checkInTicket (b : Bool) (code admin : Nat) (now : Int)
    {st : AppState} (h : WF st) : WF (checkInTicket b code admin now st).2 := by
  unfold checkInTicket
  split
  · exact h
  next t htt =>
    split
    · exact h
    next ev hev =>
      split
      · exact h
      · dsimp only
        split
        · exact h
        · split
          · exact h
          · obtain ⟨hT, hO, hObnd, hK, hKbnd, hInv⟩ := h
            have hKmap : ((st.tickets.map (fun x =>
                if x.id = t.id then
                  { x with status := .checked_in, checkInTime := some now,
                           checkedInByUserId := some admin }
                else x)).map (fun tk => tk.id)).Nodup := by
              rw [List.map_map]
              have hcomp : ((fun tk : Ticket => tk.id) ∘ (fun x =>
                  if x.id = t.id then
                    { x with status := .checked_in, checkInTime := some now,
                             checkedInByUserId := some admin }
                  else x)) = (fun tk : Ticket => tk.id) := by
                funext a
                by_cases ha : a.id = t.id <;> simp [Function.comp, ha]
              rw [hcomp]
              exact hK
            have hKbnd2 : ∀ tk ∈ st.tickets.map (fun x =>
                if x.id = t.id then
                  { x with status := .checked_in, checkInTime := some now,
                           checkedInByUserId := some admin }
                else x), tk.id < st.nextTicketId ∧ tk.uniqueCode = tk.id := by
              intro tk htk
              obtain ⟨y, hy, rfl⟩ := List.mem_map.mp htk
              by_cases hid : y.id = t.id
              · rw [if_pos hid]
                exact hKbnd y hy
              · rw [if_neg hid]
                exact hKbnd y hy
            split
            · exact ⟨hT, hO, hObnd, hKmap, hKbnd2, hInv⟩
            · exact ⟨hT, hO, hObnd, hKmap, hKbnd2, hInv⟩

/-- Every state reachable by the core operations is well-formed. -/
theorem Reachable_WF {st : AppState} (h : Reachable st) : WF st := by
  induction h with
  | init st ho hk hT hb =>
      refine ⟨hT, ?_, ?_, ?_, ?_, ?_⟩
      · rw [ho]
        exact List.nodup_nil
      · intro o hmem
        rw [ho] at hmem
        cases hmem
      · rw [hk]
        exact List.nodup_nil
      · intro tk htk
        rw [hk] at htk
        cases htk
      · intro tt htt
        refine ⟨?_, (hb tt htt).2⟩
        rw [ho]
        simpa [pendingHolds] using (hb tt htt).1
  | create u items st hr ih => exact WF_createOrder u items ih
  | cancel u c st hr ih => exact WF_cancelOrder u c ih
  | settle env oid st hr ih => exact WF_processSuccessfulOrder env oid ih
  | manual env u c pd st hr ih => exact WF_manualCheckout env u c pd ih
  | callback env p st hr ih => exact WF_handlePaymentCallback env p ih
  | checkin b code admin now st hr ih => exact WF_checkInTicket b code admin now ih

/-! ## Helper lemmas: check-in -/

theorem checkInTicket_success (b : Bool) (admin : Nat) {code : Nat} {now : Int}
    {st : AppState} {t : Ticket} {ev : Event}
    (ht : st.tickets.find? (fun x => x.uniqueCode == code && !x.deleted) = some t)
    (hev : st.events.find? (fun e => e.id == t.eventId) = some ev)
    (hst : ev.status = "published")
    (hw : ¬ now < ev.startTime - checkinLeadMs)
    (hact : t.status ≠ .checked_in) :
    checkInTicket b code admin now st =
      (.ok code now,
       { st with
           tickets := st.tickets.map (fun x =>
             if x.id = t.id then
               { x with status := .checked_in, checkInTime := some now,
                        checkedInByUserId := some admin }
             else x),
           notifications :=
             if b then
               { userId := t.userId, kind := "checkin_success" } :: st.notifications
             else st.notifications }) := by
  cases b <;> simp [checkInTicket, ht, hev, hst, hw, hact]

theorem cancelOrder_ok {u c : Nat} {st : AppState} {o : Order}
    (hf : findOrderByCode st.orders c = some o) (hown : o.userId = u)
    (hp : o.paymentStatus = .pending) :
    cancelOrder u c st = (.ok,
      { st with orders := setOrderStatus st.orders o.id .canceled,
                ticketTypes := releaseItems st.ticketTypes o.items }) := by
  simp [cancelOrder, hf, hown, hp]

theorem mapTxStatus_paid_of_snd {s : String} (h : (mapTxStatus s).2 = true) :
    (mapTxStatus s).1 = .paid := by
  unfold mapTxStatus at h ⊢
  by_cases c1 : s = "capture" <;> by_cases c2 : s = "settlement" <;>
    by_cases c3 : s = "deny" <;> by_cases c4 : s = "cancel" <;>
    by_cases c5 : s = "expire" <;> by_cases c6 : s = "pending" <;> simp_all

theorem find?_tickets_update (tickets : List Ticket) (code : Nat)
    (f : Ticket → Ticket)
    (hkeep : ∀ t, (f t).uniqueCode = t.uniqueCode ∧ (f t).deleted = t.deleted) :
    (tickets.map f).find? (fun t => t.uniqueCode == code && !t.deleted) =
      (tickets.find? (fun t => t.uniqueCode == code && !t.deleted)).map f := by
  rw [List.find?_map]
  have hp : ((fun t : Ticket => t.uniqueCode == code && !t.deleted) ∘ f) =
      (fun t : Ticket => t.uniqueCode == code && !t.deleted) := by
    funext a
    simp [Function.comp, (hkeep a).1, (hkeep a).2]
  rw [hp]

/-! ## Claim theorems -/

/-- C7: for every callback payload and state — including a missing order
identifier, an unknown order, an already-finalized order, and an internal
processing failure (all of which are particular cases of this universal
statement) — the controller wrapping of the callback handler responds
with HTTP status 200, a success acknowledgment; internal failures are
never surfaced as a failure status to the sender. -/
theorem C7_callback_always_acknowledged (env : Env) (payload : CallbackPayload)
    (st : AppState) : (handlePaymentCallbackHttp env payload st).1.1 = 200 := rfl

/-- C2 (code bug): the release operation run by order cancellation is a
plain unguarded `sold: { decrement: 1 }`; at `sold = 0` it neither
clamps nor errors, but reports success and persists `sold = -1` —
despite the source comment "Ensure sold count doesn't go below zero". -/
theorem C2_release_persists_negative :
    (cancelOrder 7 50 exStZeroSold).1 = .ok ∧
    ∃ tt ∈ (cancelOrder 7 50 exStZeroSold).2.ticketTypes, tt.sold < 0 := by decide

/-- C4 (amended): re-processing an order in a terminal (non-`pending`)
state is a no-op for both settlement entry points — no status write, no
ledger change, no tickets (the state is returned unchanged) — but only
the gateway callback reports success; a duplicate manual checkout
reports failure `.notPending` with HTTP status 400. -/
theorem C4_amended_idempotency (env : Env) (u c : Nat) (pd : PaymentDetails)
    (s : String) (st : AppState) (o : Order)
    (hf : findOrderByCode st.orders c = some o)
    (hterm : o.paymentStatus ≠ .pending)
    (hown : o.userId = u) :
    handlePaymentCallback env { order_id := some c, transaction_status := s } st =
      ({ success := true, msg := .alreadyFinalized }, st) ∧
    manualCheckout env u c pd st = (.notPending o.paymentStatus, st) ∧
    manualStatus (manualCheckout env u c pd st).1 = 400 := by
  refine ⟨?_, ?_, ?_⟩
  · simp [handlePaymentCallback, hf, hterm]
  · simp [manualCheckout, hf, hown, hterm]
  · simp [manualCheckout, hf, hown, hterm, manualStatus]

/-- C4 (counterexample): a duplicate manual checkout of an already-paid
order is rejected with `.notPending` / HTTP 400, not reported as
success, contradicting the claim that every duplicate re-processing
attempt "reports success to its caller". -/
theorem C4_counterexample :
    (manualCheckout envAllOk 7 100 { paymentAmount := some 50 } exStPaid).1 =
      .notPending .paid ∧
    manualStatus
      (manualCheckout envAllOk 7 100 { paymentAmount := some 50 } exStPaid).1 = 400 ∧
    (manualCheckout envAllOk 7 100 { paymentAmount := some 50 } exStPaid).1 ≠
      .ok := by decide

/-- C4 (witness): the amended idempotency theorem applied to the
concrete paid order 100 of `exStPaid`. -/
theorem C4_witness :
    handlePaymentCallback envAllOk
        { order_id := some 100, transaction_status := "settlement" } exStPaid =
      ({ success := true, msg := .alreadyFinalized }, exStPaid) ∧
    manualCheckout envAllOk 7 100 { paymentAmount := some 50 } exStPaid =
      (.notPending .paid, exStPaid) ∧
    manualStatus
      (manualCheckout envAllOk 7 100 { paymentAmount := some 50 } exStPaid).1 = 400 := by
  have h := C4_amended_idempotency envAllOk 7 100 { paymentAmount := some 50 }
    "settlement" exStPaid exOrderPaid (by decide) (by decide) (by decide)
  exact ⟨h.1, h.2.1, h.2.2⟩

/-- C6 (amended): the gateway-status switch maps capture/settlement to
paid (running the settlement helper), deny/cancel to failed, expire to
expired, and any string outside the six handled cases to failed; the
handled-but-unlisted case "pending" leaves the order pending with no
status write and no release; whenever the mapped outcome is a non-paid
non-pending status, the handler writes it and decrements `sold` once
per order line in the same transaction. -/
theorem C6_amended_callback_mapping (env : Env) (st : AppState) (c : Nat)
    (o : Order) (s : String)
    (hf : findOrderByCode st.orders c = some o)
    (hp : o.paymentStatus = .pending) :
    (mapTxStatus "capture" = (.paid, true) ∧
     mapTxStatus "settlement" = (.paid, true) ∧
     mapTxStatus "deny" = (.failed, false) ∧
     mapTxStatus "cancel" = (.failed, false) ∧
     mapTxStatus "expire" = (.expired, false) ∧
     mapTxStatus "pending" = (.pending, false) ∧
     (s ∉ (["capture", "settlement", "deny", "cancel", "expire", "pending"] :
        List String) → mapTxStatus s = (.failed, false))) ∧
    (s = "pending" →
      handlePaymentCallback env { order_id := some c, transaction_status := s } st =
        ({ success := true, msg := .processed }, st)) ∧
    ((mapTxStatus s).1 ≠ .pending → (mapTxStatus s).2 = false →
      handlePaymentCallback env { order_id := some c, transaction_status := s } st =
        ({ success := true, msg := .processed },
         { st with orders := setOrderStatus st.orders o.id (mapTxStatus s).1,
                   ticketTypes := releaseItems st.ticketTypes o.items })) ∧
    ((mapTxStatus s).2 = true →
      handlePaymentCallback env { order_id := some c, transaction_status := s } st =
        ({ success := true, msg := .processed },
         (processSuccessfulOrder env o.id st).2)) ∧
    (releaseItems st.ticketTypes o.items = st.ticketTypes.map
      (fun tt => { tt with sold := tt.sold - (countTT o.items tt.id : Int) })) ∧
    ((mapTxStatus s).2 = true →
      findOrderById st.orders o.id = some o →
      ∀ tks c', issueTickets env st.users o st.ticketTypes st.nextTicketId o.items =
        .ok (tks, c') → env.notifyOk = true →
      (handlePaymentCallback env
        { order_id := some c, transaction_status := s } st).2.orders =
        setOrderStatus st.orders o.id .paid) := by
  refine ⟨⟨rfl, rfl, rfl, rfl, rfl, rfl, ?_⟩, ?_, ?_, ?_, releaseItems_map _ _, ?_⟩
  · intro hs
    simp only [List.mem_cons, List.not_mem_nil, or_false, not_or] at hs
    obtain ⟨h1, h2, h3, h4, h5, h6⟩ := hs
    simp [mapTxStatus, h1, h2, h3, h4, h5, h6]
  · intro hs
    subst hs
    have hm : mapTxStatus "pending" = (.pending, false) := rfl
    simp [handlePaymentCallback, hf, hp, hm]
  · intro h1 h2
    simp [handlePaymentCallback, hf, hp, h1, h2]
  · intro h2
    have h1 : (mapTxStatus s).1 ≠ .pending := by
      rw [mapTxStatus_paid_of_snd h2]
      simp
    simp [handlePaymentCallback, hf, hp, h1, h2]
  · intro h2 hfid tks c' hiss hn
    have h1 : (mapTxStatus s).1 ≠ .pending := by
      rw [mapTxStatus_paid_of_snd h2]
      simp
    have hproc := processSuccessfulOrder_ok hfid hp hiss hn
    simp [handlePaymentCallback, hf, hp, h1, h2, hproc]

/-- C6 (counterexample): a callback with `transaction_status =
"pending"` on a pending order is acknowledged and changes nothing: the
order stays `pending` and no inventory is released, contradicting the
claim that every status outside capture/settlement/deny/cancel/expire
maps to `failed` with a release. -/
theorem C6_counterexample :
    handlePaymentCallback envAllOk
        { order_id := some 100, transaction_status := "pending" } exStPending =
      ({ success := true, msg := .processed }, exStPending) ∧
    ∃ o, findOrderByCode exStPending.orders 100 = some o ∧
      o.paymentStatus = .pending := by decide

/-- C8 (amended): the purchase-success notification row is inserted
inside the settlement transaction, so a notification-insert failure
rolls the settlement back entirely — the method reports failure and the
state (pending status, no tickets) is unchanged; the check-in
notification, by contrast, is attempted after the check-in write in a
try/catch: its failure leaves the check-in persisted and the operation
still reports success (HTTP 200) with no notification row. -/
theorem C8_amended_notifications (env : Env) (oid : Nat) (st : AppState)
    (code admin : Nat) (now : Int) (t : Ticket) (ev : Event)
    (hn : env.notifyOk = false)
    (ht : st.tickets.find? (fun x => x.uniqueCode == code && !x.deleted) = some t)
    (hev : st.events.find? (fun e => e.id == t.eventId) = some ev)
    (hst : ev.status = "published")
    (hw : ¬ now < ev.startTime - checkinLeadMs)
    (hact : t.status ≠ .checked_in) :
    processSuccessfulOrder env oid st = (false, st) ∧
    (checkInTicket false code admin now st).1 = .ok code now ∧
    (checkInTicket false code admin now st).2.notifications = st.notifications ∧
    checkInStatus (checkInTicket false code admin now st).1 = 200 := by
  have hc := checkInTicket_success false admin ht hev hst hw hact
  refine ⟨processSuccessfulOrder_notifyFail hn, ?_, ?_, ?_⟩ <;>
    rw [hc] <;> rfl

/-- C8 (counterexample): with every QR render succeeding but the
notification insert failing, settling pending order 100 reports failure
and leaves the state unchanged — still pending, zero tickets — rather
than keeping the paid status and tickets intact while reporting
success. -/
theorem C8_counterexample :
    processSuccessfulOrder envNoNotify 100 exStPending = (false, exStPending) ∧
    (∃ o, findOrderByCode exStPending.orders 100 = some o ∧
      o.paymentStatus = .pending) ∧
    exStPending.tickets = [] := by decide

/-- C6 (witness): the amended mapping theorem applied to the concrete
pending order 100: an "expire" callback writes `expired` and releases
inventory; a "pending" callback changes nothing. -/
theorem C6_witness :
    handlePaymentCallback envAllOk
        { order_id := some 100, transaction_status := "expire" } exStPending =
      ({ success := true, msg := .processed },
       { exStPending with
           orders := setOrderStatus exStPending.orders exOrderPending.id
             (mapTxStatus "expire").1,
           ticketTypes := releaseItems exStPending.ticketTypes
             exOrderPending.items }) ∧
    handlePaymentCallback envAllOk
        { order_id := some 100, transaction_status := "pending" } exStPending =
      ({ success := true, msg := .processed }, exStPending) := by
  have h1 := C6_amended_callback_mapping envAllOk exStPending 100 exOrderPending
    "expire" (by decide) (by decide)
  have h2 := C6_amended_callback_mapping envAllOk exStPending 100 exOrderPending
    "pending" (by decide) (by decide)
  exact ⟨h1.2.2.1 (by decide) (by decide), h2.2.1 rfl⟩

/-- C8 (witness): the amended notification theorem applied to
`exStPaid`: with a failing notification insert, any settlement attempt
is a rolled-back failure, while check-in of ticket 300 succeeds and
persists without a notification row. -/
theorem C8_witness :
    processSuccessfulOrder envNoNotify 100 exStPaid = (false, exStPaid) ∧
    (checkInTicket false 300 9 9000000 exStPaid).1 = .ok 300 9000000 ∧
    (checkInTicket false 300 9 9000000 exStPaid).2.notifications =
      exStPaid.notifications ∧
    checkInStatus (checkInTicket false 300 9 9000000 exStPaid).1 = 200 :=
  C8_amended_notifications envNoNotify 100 exStPaid 300 9 9000000 exTicket300
    exEvent rfl (by decide) (by decide) rfl (by decide) (by decide)

/-- C10: check-in evaluates its preconditions in order, each with its
own distinct outcome: missing/soft-deleted ticket gives `notFound`;
an event not in "published" gives `eventNotActive`; a current time
before event start minus the one-hour lead gives `notOpen` carrying the
computed opening instant; an already-checked-in ticket gives
`alreadyCheckedIn`; and a ticket checked in once can never be checked
in again — every retry yields `notOpen` or `alreadyCheckedIn` and
returns the post-check-in state unchanged, so `checkInTime` is left
intact. -/
theorem C10_checkin_preconditions (b : Bool) (code admin : Nat) (now : Int)
    (st : AppState) :
    (st.tickets.find? (fun x => x.uniqueCode == code && !x.deleted) = none →
      checkInTicket b code admin now st = (.notFound, st)) ∧
    (∀ t ev,
      st.tickets.find? (fun x => x.uniqueCode == code && !x.deleted) = some t →
      st.events.find? (fun e => e.id == t.eventId) = some ev →
      ((ev.status ≠ "published" →
        checkInTicket b code admin now st = (.eventNotActive ev.status, st)) ∧
       (ev.status = "published" → now < ev.startTime - checkinLeadMs →
        checkInTicket b code admin now st =
          (.notOpen (ev.startTime - checkinLeadMs), st)) ∧
       (ev.status = "published" → ¬ now < ev.startTime - checkinLeadMs →
        t.status = .checked_in →
        checkInTicket b code admin now st = (.alreadyCheckedIn, st)) ∧
       (ev.status = "published" → ¬ now < ev.startTime - checkinLeadMs →
        t.status ≠ .checked_in →
        ∀ st1, (checkInTicket b code admin now st).2 = st1 →
        ∀ (b2 : Bool) (admin2 : Nat) (now2 : Int),
          checkInTicket b2 code admin2 now2 st1 =
              (.notOpen (ev.startTime - checkinLeadMs), st1) ∨
          checkInTicket b2 code admin2 now2 st1 = (.alreadyCheckedIn, st1)))) := by
  refine ⟨?_, ?_⟩
  · intro h
    simp [checkInTicket, h]
  · intro t ev ht hev
    refine ⟨?_, ?_, ?_, ?_⟩
    · intro hne
      simp [checkInTicket, ht, hev, hne]
    · intro hst hlt
      simp [checkInTicket, ht, hev, hst, hlt]
    · intro hst hnlt hchk
      simp [checkInTicket, ht, hev, hst, hnlt, hchk]
    · intro hst hnlt hact st1 hst1 b2 admin2 now2
      have hc := checkInTicket_success b admin ht hev hst hnlt hact
      rw [hc] at hst1
      dsimp only at hst1
      subst hst1
      have hkeep : ∀ x : Ticket,
          ((fun x => if x.id = t.id then
              { x with status := TicketStatus.checked_in,
                       checkInTime := some now,
                       checkedInByUserId := some admin }
            else x) x).uniqueCode = x.uniqueCode ∧
          ((fun x => if x.id = t.id then
              { x with status := TicketStatus.checked_in,
                       checkInTime := some now,
                       checkedInByUserId := some admin }
            else x) x).deleted = x.deleted := by
        intro x
        by_cases hx : x.id = t.id <;> simp [hx]
      have hf1 : (st.tickets.map (fun x =>
          if x.id = t.id then
            { x with status := TicketStatus.checked_in,
                     checkInTime := some now,
                     checkedInByUserId := some admin }
          else x)).find? (fun x => x.uniqueCode == code && !x.deleted) =
          some { t with status := TicketStatus.checked_in,
                        checkInTime := some now,
                        checkedInByUserId := some admin } := by
        rw [find?_tickets_update _ _ _ hkeep, ht]
        simp
      by_cases hlt2 : now2 < ev.startTime - checkinLeadMs
      · left
        simp [checkInTicket, hf1, hev, hst, hlt2]
      · right
        simp [checkInTicket, hf1, hev, hst, hlt2]

/-- C10 (witness): the precondition theorem applied to `exStPaid`:
a missing code gives `notFound`; too-early check-in gives `notOpen`
with the computed opening instant; after a successful check-in at
t = 9000000, a retry is rejected with the state unchanged. -/
theorem C10_witness :
    checkInTicket true 999 9 9000000 exStPaid = (.notFound, exStPaid) ∧
    checkInTicket true 300 9 1000000 exStPaid =
      (.notOpen (exEvent.startTime - checkinLeadMs), exStPaid) ∧
    (checkInTicket true 300 9 9500000 (checkInTicket true 300 9 9000000 exStPaid).2 =
        (.notOpen (exEvent.startTime - checkinLeadMs),
         (checkInTicket true 300 9 9000000 exStPaid).2) ∨
     checkInTicket true 300 9 9500000 (checkInTicket true 300 9 9000000 exStPaid).2 =
        (.alreadyCheckedIn, (checkInTicket true 300 9 9000000 exStPaid).2)) := by
  have h1 := C10_checkin_preconditions true 999 9 9000000 exStPaid
  have h2 := C10_checkin_preconditions true 300 9 1000000 exStPaid
  have h3 := C10_checkin_preconditions true 300 9 9000000 exStPaid
  refine ⟨h1.1 (by decide), ?_, ?_⟩
  · exact (h2.2 exTicket300 exEvent (by decide) (by decide)).2.1 rfl (by decide)
  · exact (h3.2 exTicket300 exEvent (by decide) (by decide)).2.2.2 rfl (by decide)
      (by decide) _ rfl true 9 9500000

/-- C5: cancellation succeeds exactly when the order exists, the
requester is the owner and the status is `pending`; a non-pending
cancel fails with the invalid-state outcome (HTTP 400) and changes
nothing; a successful cancel writes `canceled` and decrements each
line's ticket-type `sold` by one; cancelling an order right after its
creation restores every ticket-type `sold` to its pre-order value. -/
theorem C5_cancellation (u c : Nat) (st : AppState) :
    (∀ o, findOrderByCode st.orders c = some o → o.userId = u →
      o.paymentStatus ≠ .pending →
      cancelOrder u c st = (.invalidState o.paymentStatus, st) ∧
      cancelStatus (cancelOrder u c st).1 = 400) ∧
    ((cancelOrder u c st).1 = .ok ↔
      ∃ o, findOrderByCode st.orders c = some o ∧ o.userId = u ∧
        o.paymentStatus = .pending) ∧
    (∀ o, findOrderByCode st.orders c = some o → o.userId = u →
      o.paymentStatus = .pending →
      (cancelOrder u c st).1 = .ok ∧
      (cancelOrder u c st).2.orders = setOrderStatus st.orders o.id .canceled ∧
      (cancelOrder u c st).2.ticketTypes = st.ticketTypes.map
        (fun tt => { tt with sold := tt.sold - (countTT o.items tt.id : Int) })) ∧
    (∀ (items : List Nat) (code : Nat) (total : Int) (st1 : AppState),
      createOrder u items st = (.ok code total, st1) →
      (cancelOrder u code st1).1 = .ok ∧
      (cancelOrder u code st1).2.ticketTypes = st.ticketTypes) := by
  refine ⟨?_, ?_, ?_, ?_⟩
  · intro o hf hown hnp
    constructor
    · simp [cancelOrder, hf, hown, hnp]
    · simp [cancelOrder, hf, hown, hnp, cancelStatus]
  · constructor
    · intro hok
      unfold cancelOrder at hok
      split at hok
      · simp at hok
      next o hf =>
        split at hok
        · simp at hok
        next hown =>
          split at hok
          · simp at hok
          next hp => exact ⟨o, hf, not_not.mp hown, not_not.mp hp⟩
    · rintro ⟨o, hf, hown, hp⟩
      simp [cancelOrder, hf, hown, hp]
  · intro o hf hown hp
    refine ⟨?_, ?_, ?_⟩
    · simp [cancelOrder, hf, hown, hp]
    · simp [cancelOrder, hf, hown, hp]
    · simp [cancelOrder, hf, hown, hp, releaseItems_map]
  · intro items code total st1 hcr
    unfold createOrder at hcr
    cases hpi : processItems st.orders u [] items st.ticketTypes with
    | error e =>
        rw [hpi] at hcr
        simp at hcr
    | ok out =>
        obtain ⟨data, out2⟩ := out
        obtain ⟨total0, tts'⟩ := out2
        rw [hpi] at hcr
        dsimp only at hcr
        rw [Prod.mk.injEq] at hcr
        obtain ⟨hres, hst1⟩ := hcr
        obtain ⟨hcode, htot⟩ := CreateOrderResult.ok.inj hres
        subst hcode
        subst hst1
        have htts := processItems_ok_tts items [] st.ticketTypes hpi
        subst htts
        have hfind : findOrderByCode
            ({ id := st.nextOrderId, orderCode := st.nextOrderId, userId := u,
               totalAmount := total0, paymentStatus := .pending,
               items := assignItemIds st.nextItemId data } :: st.orders)
              st.nextOrderId =
            some ({ id := st.nextOrderId, orderCode := st.nextOrderId, userId := u,
                    totalAmount := total0, paymentStatus := .pending,
                    items := assignItemIds st.nextItemId data }) := by
          apply List.find?_cons_of_pos
          simp
        rw [cancelOrder_ok hfind (by rfl) (by rfl)]
        refine ⟨rfl, ?_⟩
        have hfun : ∀ a ∈ st.ticketTypes,
            ((fun tt => { tt with
                sold := tt.sold -
                  (countTT (assignItemIds st.nextItemId data) tt.id : Int) }) ∘
              (fun tt => { tt with
                sold := tt.sold + (countTTData data tt.id : Int) })) a = id a := by
          intro a _
          simp only [Function.comp, countTT_assignItemIds, id]
          cases a
          simp only [TicketType.mk.injEq, and_true, true_and]
          omega
        dsimp only
        rw [releaseItems_map, List.map_map, List.map_congr_left hfun, List.map_id]

/-- C5 (witness): cancelling the paid order 100 fails with the
invalid-state outcome and changes nothing; creating an order for ticket
types 1 and 2 and cancelling it restores both sold counters. -/
theorem C5_witness :
    (cancelOrder 7 100 exStPaid = (.invalidState .paid, exStPaid) ∧
     cancelStatus (cancelOrder 7 100 exStPaid).1 = 400) ∧
    ((cancelOrder 7 100 (createOrder 7 [1, 2] exSt0).2).1 = .ok ∧
     (cancelOrder 7 100 (createOrder 7 [1, 2] exSt0).2).2.ticketTypes =
       exSt0.ticketTypes) := by
  have h1 := C5_cancellation 7 100 exStPaid
  have h2 := C5_cancellation 7 100 exSt0
  refine ⟨?_, ?_⟩
  · exact h1.1 exOrderPaid (by decide) (by decide) (by decide)
  · exact h2.2.2.2 [1, 2] 100 80 (createOrder 7 [1, 2] exSt0).2 (by decide)

/-- C9: any failing order-creation transaction rolls back completely
(no order, no lines, no ledger increment persists); a request whose
first item's event already has a pending or paid order of the same user
is rejected with the already-has-ticket error; a request with two lines
whose ticket types belong to the same event is rejected with the
duplicate-event error, again leaving the state untouched. -/
theorem C9_duplicate_purchase (u : Nat) (st : AppState) :
    (∀ (items : List Nat) (e : OrderError) (r : CreateOrderResult)
      (st2 : AppState),
      createOrder u items st = (r, st2) → r = .err e → st2 = st) ∧
    (∀ (i : Nat) (rest : List Nat) (tt : TicketType),
      findTicketType st.ticketTypes i = some tt →
      0 < countActiveOrdersForEvent st.orders st.ticketTypes u tt.eventId →
      createOrder u (i :: rest) st =
        (.err (.alreadyHasTicketForEvent tt.eventId), st)) ∧
    (∀ (i1 i2 : Nat) (t1 t2 : TicketType) (q1 : Int),
      findTicketType st.ticketTypes i1 = some t1 →
      findTicketType st.ticketTypes i2 = some t2 →
      t2.eventId = t1.eventId →
      countActiveOrdersForEvent st.orders st.ticketTypes u t1.eventId = 0 →
      t1.quota = some q1 → t1.sold < q1 →
      createOrder u [i1, i2] st =
        (.err (.duplicateEventInRequest t1.eventId), st)) := by
  refine ⟨?_, ?_, ?_⟩
  · intro items e r st2 h hr
    subst hr
    unfold createOrder at h
    cases hpi : processItems st.orders u [] items st.ticketTypes with
    | error e2 =>
        rw [hpi] at h
        rw [Prod.mk.injEq] at h
        exact h.2.symm
    | ok out =>
        rw [hpi] at h
        obtain ⟨data, out2⟩ := out
        obtain ⟨total0, tts'⟩ := out2
        dsimp only at h
        rw [Prod.mk.injEq] at h
        exact absurd h.1 (by simp)
  · intro i rest tt hf hcnt
    have hpi : processItems st.orders u [] (i :: rest) st.ticketTypes =
        .error (.alreadyHasTicketForEvent tt.eventId) := by
      simp [processItems, hf, hcnt]
    simp [createOrder, hpi]
  · intro i1 i2 t1 t2 q1 hf1 hf2 hev hcnt hs
    intro hlt
    have hs2 : ¬ q1 ≤ t1.sold := by omega
    have hf2i : findTicketType (incSold st.ticketTypes i1) i2 =
        some (if t2.id = i1 then { t2 with sold := t2.sold + 1 } else t2) := by
      rw [findTicketType_incSold, hf2]
      rfl
    have heq : (if t2.id = i1 then
        ({ t2 with sold := t2.sold + 1 } : TicketType) else t2).eventId =
        t1.eventId := by
      by_cases h : t2.id = i1 <;> simp [h, hev]
    have hpi : processItems st.orders u [] [i1, i2] st.ticketTypes =
        .error (.duplicateEventInRequest t1.eventId) := by
      simp [processItems, hf1, hcnt, hs, hs2, hf2i, heq]
    simp [createOrder, hpi]

/-- C9 (witness): user 7 already holds the pending order 100 for event
10, so a second request for ticket type 1 is rejected; a single request
with two ticket types of event 10 is rejected as a duplicate; both
leave the state unchanged. -/
theorem C9_witness :
    createOrder 7 [1] exStPending =
      (.err (.alreadyHasTicketForEvent 10), exStPending) ∧
    createOrder 7 [1, 3] exStDup =
      (.err (.duplicateEventInRequest 10), exStDup) := by
  have h1 := C9_duplicate_purchase 7 exStPending
  have h2 := C9_duplicate_purchase 7 exStDup
  exact ⟨h1.2.1 1 [] exTT1sold (by decide) (by decide),
         h2.2.2 1 3 exTT1 exTT3 2 (by decide) (by decide) (by decide)
           (by decide) (by decide) (by decide)⟩

/-- C3: settling a pending order issues exactly one ticket per order
line inside the same atomic transaction as the pending-to-paid write:
the line-wise ticket list matches the order's items one to one, every
new code is distinct from every other new and pre-existing code, and
attendee identity is copied from the buyer; if QR rendering fails for
any line the whole transaction rolls back — the method reports failure
and the state (pending order, zero new tickets) is unchanged; an order
not in `pending` is never re-processed, so the ticket count per order
cannot grow past the line count. -/
theorem C3_settlement_exactly_once (env : Env) (oid : Nat) (st : AppState)
    (o : Order) (u : User)
    (hWF : WF st)
    (hf : findOrderById st.orders oid = some o) :
    (o.paymentStatus ≠ .pending → processSuccessfulOrder env oid st = (false, st)) ∧
    (o.paymentStatus = .pending →
      ((∃ k, k < o.items.length ∧ env.qrOk (st.nextTicketId + k) = false) →
        processSuccessfulOrder env oid st = (false, st)) ∧
      (findUser st.users o.userId = some u →
       (∀ it ∈ o.items,
         (findTicketTypeAny st.ticketTypes it.ticketTypeId).isSome = true) →
       (∀ k, k < o.items.length → env.qrOk (st.nextTicketId + k) = true) →
       env.notifyOk = true →
       ∃ tks,
         processSuccessfulOrder env oid st =
           (true,
            { st with orders := setOrderStatus st.orders o.id .paid,
                      tickets := tks ++ st.tickets,
                      notifications :=
                        { userId := o.userId, kind := "purchase_success" } ::
                          st.notifications,
                      nextTicketId := st.nextTicketId + o.items.length }) ∧
         tks.length = o.items.length ∧
         tks.map (fun tk => tk.orderItemId) = o.items.map (fun it => it.id) ∧
         (tks.map (fun tk => tk.uniqueCode)).Nodup ∧
         (∀ tk ∈ tks, ∀ old ∈ st.tickets, tk.uniqueCode ≠ old.uniqueCode) ∧
         (∀ tk ∈ tks, tk.userId = o.userId ∧ tk.status = .active ∧
           tk.attendeeName = u.name ∧ tk.attendeeEmail = u.email))) := by
  refine ⟨?_, ?_⟩
  · intro hnp
    simp [processSuccessfulOrder, hf, hnp]
  · intro hp
    refine ⟨?_, ?_⟩
    · rintro ⟨k, hk, hkf⟩
      cases hiss : issueTickets env st.users o st.ticketTypes st.nextTicketId
          o.items with
      | error e => simp [processSuccessfulOrder, hf, hp, hiss]
      | ok out =>
          obtain ⟨tks, c'⟩ := out
          have hok := issueTickets_ok o.items st.nextTicketId hiss
          have htrue := hok.2.2.2.2.2.1 k hk
          rw [htrue] at hkf
          cases hkf
    · intro hu hrel hqr hn
      obtain ⟨tks, c', hiss⟩ :=
        issueTickets_exists hu o.items st.nextTicketId hrel hqr
      obtain ⟨ihc, ihlen, ihids, ihcode, ihoi, ihqr, ihattrs⟩ :=
        issueTickets_ok o.items st.nextTicketId hiss
      have hc' : c' = st.nextTicketId + o.items.length := by rw [ihc, ihlen]
      subst hc'
      refine ⟨tks, processSuccessfulOrder_ok hf hp hiss hn, ihlen, ihoi, ?_, ?_, ?_⟩
      · have hmapeq : tks.map (fun tk => tk.uniqueCode) =
            tks.map (fun tk => tk.id) :=
          List.map_congr_left (fun tk htk => ihcode tk htk)
        rw [hmapeq, ihids]
        exact List.nodup_range' _ _ 1 (by norm_num)
      · intro tk htk old hold
        obtain ⟨hT, hO, hObnd, hK, hKbnd, hInv⟩ := hWF
        have h1 : tk.uniqueCode = tk.id := ihcode tk htk
        have h2 : tk.id ∈ List.range' st.nextTicketId o.items.length := by
          rw [← ihids]
          exact List.mem_map_of_mem _ htk
        have h3 := List.mem_range'_1.mp h2
        have h4 := hKbnd old hold
        omega
      · intro tk htk
        obtain ⟨ha, hb, u2, hu2, hc, hd⟩ := ihattrs tk htk
        rw [hu] at hu2
        obtain rfl := Option.some.inj hu2
        exact ⟨ha, hb, hc, hd⟩

/-- C3 (witness): settling the pending order 100 in `exStPending` with
every collaborator succeeding produces exactly one ticket for its one
line, atomically with the paid write. -/
theorem C3_witness :
    ∃ tks,
      processSuccessfulOrder envAllOk 100 exStPending =
        (true,
         { exStPending with
             orders := setOrderStatus exStPending.orders exOrderPending.id .paid,
             tickets := tks ++ exStPending.tickets,
             notifications :=
               { userId := exOrderPending.userId, kind := "purchase_success" } ::
                 exStPending.notifications,
             nextTicketId :=
               exStPending.nextTicketId + exOrderPending.items.length }) ∧
      tks.length = exOrderPending.items.length := by
  obtain ⟨tks, h1, h2, _⟩ := ((C3_settlement_exactly_once envAllOk 100 exStPending
    exOrderPending exUser (by decide) (by decide)).2 rfl).2 (by decide) (by decide)
    (fun k hk => rfl) rfl
  exact ⟨tks, h1, h2⟩

/-- C1: in every state reachable by the core operations (order
creation, cancellation, settlement, manual checkout, gateway callback,
check-in) from an initial catalog with `0 ≤ sold ≤ quota`, every ticket
type satisfies `0 ≤ sold` and `sold ≤ quota` whenever a quota is
defined; moreover order creation on a ticket type at `sold ≥ quota`
fails with the sold-out error and leaves the state unchanged rather
than incrementing `sold` past `quota`. -/
theorem C1_ledger_invariant (st : AppState) (h : Reachable st) :
    (∀ tt ∈ st.ticketTypes, 0 ≤ tt.sold ∧ ∀ q ∈ tt.quota, tt.sold ≤ q) ∧
    (∀ (u i : Nat) (tt : TicketType) (q : Int),
      findTicketType st.ticketTypes i = some tt →
      countActiveOrdersForEvent st.orders st.ticketTypes u tt.eventId = 0 →
      tt.quota = some q → q ≤ tt.sold →
      createOrder u [i] st = (.err (.soldOut i), st)) := by
  obtain ⟨hT, hO, hObnd, hK, hKbnd, hInv⟩ := Reachable_WF h
  refine ⟨?_, ?_⟩
  · intro tt htt
    have h1 := (hInv tt htt).1
    exact ⟨by omega, (hInv tt htt).2⟩
  · intro u i tt q hf hcnt hq hsold
    have hpi : processItems st.orders u [] [i] st.ticketTypes =
        .error (.soldOut i) := by
      simp [processItems, hf, hcnt, hq, hsold]
    simp [createOrder, hpi]

/-- C1 (witness): the invariant theorem applied to the initial state
whose only ticket type has `quota = 1 = sold`: the bounds hold and a
reservation attempt fails with the sold-out error, state unchanged. -/
theorem C1_witness :
    (∀ tt ∈ exStFull.ticketTypes, 0 ≤ tt.sold ∧ ∀ q ∈ tt.quota, tt.sold ≤ q) ∧
    createOrder 5 [1] exStFull = (.err (.soldOut 1), exStFull) := by
  have h := C1_ledger_invariant exStFull
    (Reachable.init exStFull rfl rfl (by decide) (by decide))
  exact ⟨h.1, h.2 5 1 exTTfull 1 (by decide) (by decide) (by decide) (by decide)⟩

end EventApp
